import Mathlib

/-!
Verification development for the landsat-to-cog pipeline
(`process_landsat.py`).  The definitions below shallowly embed the
pure control flow and string manipulation of the source program:
filesystem, S3 and SQS effects are recorded as an explicit event
trace, and the environment (`Env`) carries the results the external
world would return (queue messages, directory listings, walk results,
remote-store contents, parsed metadata).
-/

namespace LandsatCog

/-- Characters matched by the regex class `\s` (ASCII portion). -/
def isWs (c : Char) : Bool :=
  c = ' ' || c = '\t' || c = '\n' || c = '\r' || c = '\x0b' || c = '\x0c'

/-- The double-quote character. -/
def dq : Char := Char.ofNat 34

/-- `isPrefixList n h` : does list `n` occur at the head of `h`? -/
def isPrefixList : List Char → List Char → Bool
  | [], _ => true
  | _ :: _, [] => false
  | a :: as, b :: bs => a = b && isPrefixList as bs

/-- `substrAux n h` : does list `n` occur contiguously anywhere in `h`?
(Embeds the Python `n in h` substring test.) -/
def substrAux (needle : List Char) : List Char → Bool
  | [] => isPrefixList needle []
  | c :: cs => isPrefixList needle (c :: cs) || substrAux needle cs

/-- Python `needle in hay` on strings. -/
def containsSub (hay needle : String) : Bool :=
  substrAux needle.data hay.data

/-- Python `hay.endswith(needle)`. -/
def endsWithStr (hay needle : String) : Bool :=
  needle.data.isSuffixOf hay.data

/-- Split a character list on a separator character (Python `str.split(sep)`
for a one-character separator). -/
def splitChar (sep : Char) : List Char → List (List Char)
  | [] => [[]]
  | c :: cs =>
    match splitChar sep cs with
    | h :: t => if c = sep then [] :: h :: t else (c :: h) :: t
    | [] => [[c]]

/-- Python `s.split("/")`. -/
def splitSlash (s : String) : List String :=
  (splitChar '/' s.data).map (fun l => String.mk l)

/-- Does the string start with a slash? -/
def startsWithSlash (s : String) : Bool :=
  match s.data with
  | c :: _ => c = '/'
  | [] => false

/-- Does the string end with a slash? -/
def endsWithSlash (s : String) : Bool :=
  match s.data.getLast? with
  | some c => c = '/'
  | none => false

/-- Two-argument `os.path.join` (posix semantics). -/
def pjoin2 (a b : String) : String :=
  if startsWithSlash b then b
  else if a = "" || endsWithSlash a then a ++ b
  else a ++ "/" ++ b

/-- `os.path.basename`: everything after the final slash. -/
def basename (s : String) : String :=
  (splitSlash s).getLastD ""

/-- `check_dir` from the source: split the filename on `/` and join the
last two components (`pjoin(*file_name[-2:])`). -/
def check_dir (fname : String) : String :=
  let parts := splitSlash fname
  match parts.drop (parts.length - 2) with
  | [a, b] => pjoin2 a b
  | [a] => a
  | _ => ""

/-- `getfilename` from the source: place `check_dir fname` under `outdir`
(the `os.makedirs` side effect is not modelled; only the returned path). -/
def getfilename (fname outdir : String) : String :=
  pjoin2 outdir (check_dir fname)

/-- Decimal rendering zero-padded on the left to width `w`
(Python `strftime` zero padding). -/
def padNat (w n : Nat) : String :=
  let s := toString n
  String.mk (List.replicate (w - s.length) '0') ++ s

/-- A calendar date as carried by the parsed `datetime`. -/
structure SimpleDate where
  year : Nat
  month : Nat
  day : Nat
deriving DecidableEq

/-- `strftime("%Y/%m/%d")`. -/
def strftimeYmd (d : SimpleDate) : String :=
  padNat 4 d.year ++ "/" ++ padNat 2 d.month ++ "/" ++ padNat 2 d.day

/-- The dictionary returned by `get_metadata`. -/
structure LandsatMeta where
  datetime : SimpleDate
  satellite : String
  path : String
  row : String
deriving DecidableEq

/-- `out_file_path` as formatted in `process_one`:
`"{directory}/{satellite}/{path}/{row}/{date}"` with the date rendered
by `strftime("%Y/%m/%d")`. -/
def mkOutFilePath (directory : String) (m : LandsatMeta) : String :=
  directory ++ "/" ++ m.satellite ++ "/" ++ m.path ++ "/" ++ m.row ++ "/" ++
    strftimeYmd m.datetime

/-- Filename test in the transform loop:
`fname.endswith('.tif') and ('_sr_' in fname or '_qa' in fname)`. -/
def qualifies (fname : String) : Bool :=
  endsWithStr fname ".tif" && (containsSub fname "_sr_" || containsSub fname "_qa")

/-- `get_xmlfile`: first name in the directory listing containing `.xml`;
`none` when the loop falls through (Python returns `None`). -/
def get_xmlfile (listing : List String) : Option String :=
  listing.find? (fun f => containsSub f ".xml")

/-- `check_processed` restricted to its non-raising behaviour: the key
exists in the remote store or it does not (the non-404 error path of the
source re-raises and is outside this model). -/
def check_processed (store : List String) (key : String) : Bool :=
  store.contains key

/-- Arguments of `process_one(overwrite, cleanup, test)`. -/
structure Config where
  overwrite : Bool
  cleanup : Bool
  test : Bool

/-- The responses of the external world consumed by one `process_one`
attempt: the received queue messages, filesystem state, the walk of the
download workspace, the parsed metadata for a descriptor path, the set
of keys already present in the remote store, and the configuration
strings `OUT_PATH`, `WORKDIR` and the absolute `OUTDIR`. -/
structure Env where
  messages : List String
  localArchiveExists : Bool
  unpackOk : Bool
  workdirListing : List String
  walkFiles : List (String × String)
  metaOf : String → LandsatMeta
  store : List String
  outPath : String
  workdir : String
  outdir : String

/-- Externally visible effects of one attempt, in program order. -/
inductive Event where
  | download (key : String)
  | transformCall (inFile outFile : String)
  | uploadData (key : String)
  | uploadMeta (key : String)
  | cleanupEv
  | deleteMessage
deriving DecidableEq

/-- Uncaught Python exceptions escaping `process_one`:
`os.path.join(WORKDIR, None)` when no descriptor is found, and
`None.delete()` at the final acknowledge when no message was retained. -/
inductive RunError where
  | typeErrorJoinNone
  | attributeErrorNoneDelete
deriving DecidableEq

/-- Normal completion: the event trace and the `process_failed` flag. -/
structure RunResult where
  events : List Event
  failed : Bool
deriving DecidableEq

/-- An escaping exception also carries the events performed before it. -/
abbrev RunOutcome := Except (RunError × List Event) RunResult

instance : DecidableEq RunOutcome := fun a b =>
  match a, b with
  | Except.ok x, Except.ok y =>
    if h : x = y then isTrue (by rw [h]) else isFalse (by simp [h])
  | Except.error x, Except.error y =>
    if h : x = y then isTrue (by rw [h]) else isFalse (by simp [h])
  | Except.ok _, Except.error _ => isFalse (by simp)
  | Except.error _, Except.ok _ => isFalse (by simp)

/-- Did the attempt complete normally (no exception escaped)? -/
def runOk : RunOutcome → Bool
  | Except.ok _ => true
  | Except.error _ => false

/-- The conditional download of the archive (`if not os.path.isfile`). -/
def downloadSeg (env : Env) (key : String) : List Event :=
  if env.localArchiveExists then [] else [Event.download key]

/-- The qualifying files of the workspace walk, in walk order. -/
def qualFiles (env : Env) : List (String × String) :=
  env.walkFiles.filter (fun pf => qualifies pf.2)

/-- `out_files` as collected by the transform loop. -/
def outFilesFor (env : Env) : List String :=
  (qualFiles env).map (fun pf => getfilename (pjoin2 pf.1 pf.2) env.outdir)

/-- One `cog_translate` call per qualifying file, in walk order. -/
def transformSeg (env : Env) : List Event :=
  (qualFiles env).map (fun pf =>
    Event.transformCall (pjoin2 pf.1 pf.2) (getfilename (pjoin2 pf.1 pf.2) env.outdir))

/-- `xml_file = os.path.join(WORKDIR, get_xmlfile(WORKDIR))`. -/
def xmlFileFor (env : Env) (xmlName : String) : String :=
  pjoin2 env.workdir xmlName

/-- `out_file_path` computed from the parsed metadata of the descriptor. -/
def outFilePathFor (env : Env) (xmlName : String) : String :=
  mkOutFilePath env.outPath (env.metaOf (xmlFileFor env xmlName))

/-- `xml_key = "{out_file_path}/{basename(xml_file)}"`. -/
def xmlKeyFor (env : Env) (xmlName : String) : String :=
  outFilePathFor env xmlName ++ "/" ++ basename (xmlFileFor env xmlName)

/-- The data-upload loop: one `put_object` per produced output file, with
key `"{out_file_path}/{basename(out_file)}"`. -/
def uploadSeg (env : Env) (xmlName : String) : List Event :=
  (outFilesFor env).map (fun o =>
    Event.uploadData (outFilePathFor env xmlName ++ "/" ++ basename o))

/-- The optional cleanup block (`delete_files` on both workspaces). -/
def cleanupSeg (cfg : Config) : List Event :=
  if cfg.cleanup then [Event.cleanupEv] else []

/-- Tail of every non-raising path through `process_one`: optional
cleanup, then `message.delete()` — which raises `AttributeError` when no
message object was retained (`message is None`). -/
def finish (cfg : Config) (evs : List Event) (failed : Bool)
    (message : Option String) : RunOutcome :=
  match message with
  | none => Except.error (RunError.attributeErrorNoneDelete, evs ++ cleanupSeg cfg)
  | some _ => Except.ok ⟨evs ++ cleanupSeg cfg ++ [Event.deleteMessage], failed⟩

/-- Body of `process_one` after a file to process has been determined:
download if absent locally, unpack, and if the unpack succeeded: locate
the descriptor (raising if there is none), derive the keys, check the
idempotency marker, and transform/validate/publish behind the
skip-or-process gate.  Ends at cleanup and message deletion. -/
def processBody (cfg : Config) (env : Env) (message : Option String)
    (fileToProcess : String) : RunOutcome :=
  let base := downloadSeg env fileToProcess
  if env.unpackOk then
    match get_xmlfile env.workdirListing with
    | none => Except.error (RunError.typeErrorJoinNone, base)
    | some xmlName =>
      if cfg.overwrite || !check_processed env.store (xmlKeyFor env xmlName) then
        if 7 ≤ (outFilesFor env).length then
          finish cfg
            (base ++ transformSeg env ++ uploadSeg env xmlName ++
              [Event.uploadMeta (xmlKeyFor env xmlName)]) false message
        else
          finish cfg (base ++ transformSeg env) true message
      else
        finish cfg base false message
  else
    finish cfg base true message

/-- The hardcoded archive key used when `test` is true. -/
def TESTKEY : String :=
  "from-tony/alex1129/espa-tonybutzer@gmail.com-11292018-115452-258/LE072110482001051101T1-SC20181129141358.tar.gz"

/-- `process_one`: take the first received message only when some message
arrived and `test` is false; otherwise process the hardcoded test key in
test mode (retaining no message object), or return immediately when the
queue was empty outside test mode. -/
def process_one (cfg : Config) (env : Env) : RunOutcome :=
  match env.messages, cfg.test with
  | m :: _, false => processBody cfg env (some m) m
  | _, _ =>
    if cfg.test then processBody cfg env none TESTKEY
    else Except.ok ⟨[], false⟩

/-- Loop of `get_items`: for each listed key matching a truthy filter,
increment the counter, break (without sending) once it reaches `LIMIT`,
and otherwise enqueue the key.  Returns the sent message bodies in
order. -/
def get_itemsAux (filt : Option String) (LIMIT : Nat) :
    Nat → List String → List String
  | _, [] => []
  | count, item :: rest =>
    match filt with
    | none => get_itemsAux filt LIMIT count rest
    | some f =>
      if f ≠ "" && containsSub item f then
        if LIMIT ≤ count + 1 then []
        else item :: get_itemsAux filt LIMIT (count + 1) rest
      else get_itemsAux filt LIMIT count rest

/-- `get_items(LIMIT, filter)` over a source listing `items`. -/
def get_items (LIMIT : Nat) (filt : Option String) (items : List String) :
    List String :=
  get_itemsAux filt LIMIT 0 items

/-- Is the event a remote-store write (data or metadata upload)? -/
def isUploadEvent : Event → Bool
  | Event.uploadData _ => true
  | Event.uploadMeta _ => true
  | _ => false

/-- Is the event a `cog_translate` invocation? -/
def isTransformEvent : Event → Bool
  | Event.transformCall _ _ => true
  | _ => false

/-- Keys of the data uploads in a trace, in order. -/
def uploadDataKeys (evs : List Event) : List String :=
  evs.filterMap (fun e =>
    match e with
    | Event.uploadData k => some k
    | _ => none)

/-- Keys of the metadata uploads in a trace, in order. -/
def uploadMetaKeys (evs : List Event) : List String :=
  evs.filterMap (fun e =>
    match e with
    | Event.uploadMeta k => some k
    | _ => none)

/-- Modelled from the spec's words, for comparison with `getfilename`
(the source computation): the mirrored relative path of an input file
under the transform workspace — strip the walk-root prefix from the
input path and re-root the remainder under `outdir`. -/
def specMirroredOutputPath (walkRoot outdir full : String) : String :=
  if isPrefixList (walkRoot ++ "/").data full.data then
    pjoin2 outdir (String.mk (full.data.drop (walkRoot ++ "/").data.length))
  else pjoin2 outdir full

/-- `stripLit lit s`: consume the literal `lit` at the head of `s`. -/
def stripLit : List Char → List Char → Option (List Char)
  | [], s => some s
  | _ :: _, [] => none
  | l :: ls, c :: cs => if c = l then stripLit ls cs else none

/-- Scan for the closing double quote, returning what follows it. -/
def matchBody : List Char → Option (List Char)
  | [] => none
  | c :: cs => if c = dq then some cs else matchBody cs

/-- Consume `[^"]+"`: at least one non-quote character, then the
closing quote. -/
def matchQuoted : List Char → Option (List Char)
  | [] => none
  | c :: cs => if c = dq then none else matchBody cs

/-- Match the regex `\sxmlns="[^"]+"` at the head of the list, returning
the remainder after the match. -/
def matchXmlns : List Char → Option (List Char)
  | [] => none
  | c :: cs =>
    if isWs c then (stripLit ("xmlns=\x22").data cs).bind matchQuoted else none

/-- `re.sub(r'\sxmlns="[^"]+"', '', s, count=1)` on the character list:
delete the first match, keep everything else. -/
def stripAux : List Char → List Char
  | [] => []
  | c :: cs =>
    match matchXmlns (c :: cs) with
    | some rest => rest
    | none => c :: stripAux cs

/-- Does the pattern `\sxmlns="[^"]+"` match anywhere in the list? -/
def hasMatch : List Char → Bool
  | [] => false
  | c :: cs => (matchXmlns (c :: cs)).isSome || hasMatch cs

/-- The namespace-stripping substitution of `get_metadata`. -/
def stripXmlns (s : String) : String :=
  String.mk (stripAux s.data)

/-- A descriptor document over a fixed structural body, rendered with or
without a default XML namespace declaration on the root element. -/
def renderDescriptor (ns : Option String) (body : String) : String :=
  "<espa_metadata" ++
    (match ns with
     | some u => " xmlns=\x22" ++ u ++ "\x22"
     | none => "") ++
    ">" ++ body ++ "</espa_metadata>"

/-- An XML element as produced by the external `ElementTree` parser:
tag, attributes, child elements and text content. -/
inductive XNode where
  | elem (tag : String) (attrs : List (String × String))
      (children : List XNode) (textVal : Option String)

/-- Tag of an element. -/
def XNode.tag : XNode → String
  | XNode.elem t _ _ _ => t

/-- Attributes of an element. -/
def XNode.attrs : XNode → List (String × String)
  | XNode.elem _ a _ _ => a

/-- Child elements of an element. -/
def XNode.children : XNode → List XNode
  | XNode.elem _ _ c _ => c

/-- Text content of an element. -/
def XNode.textVal : XNode → Option String
  | XNode.elem _ _ _ x => x

/-- `ElementTree` `find('.//tag')`: first element with the given tag in
document order among the descendants of the given elements. -/
def findDescList (tag : String) : List XNode → Option XNode
  | [] => none
  | XNode.elem t a cs x :: rest =>
    if t = tag then some (XNode.elem t a cs x)
    else
      match findDescList tag cs with
      | some n => some n
      | none => findDescList tag rest

/-- `ElementTree` `find('tag')`: first direct child with the given tag. -/
def findChildList (tag : String) (l : List XNode) : Option XNode :=
  l.find? (fun n => n.tag = tag)

/-- Attribute lookup (`element.attrib[key]`). -/
def attribLookup (k : String) (attrs : List (String × String)) : Option String :=
  (attrs.find? (fun p => p.1 = k)).map (fun p => p.2)

/-- Decimal number from a nonempty all-digit character list. -/
def natOfDigits : List Char → Option Nat
  | [] => none
  | l =>
    l.foldl
      (fun acc c =>
        match acc with
        | none => none
        | some a => if c.isDigit then some (a * 10 + (c.toNat - 48)) else none)
      (some 0)

/-- `datetime.strptime(s, "%Y-%m-%d")`. -/
def parseIsoDate (s : String) : Option SimpleDate :=
  match splitChar '-' s.data with
  | [y, m, d] =>
    match natOfDigits y, natOfDigits m, natOfDigits d with
    | some yy, some mm, some dd =>
      if 1 ≤ mm && mm ≤ 12 && 1 ≤ dd && dd ≤ 31 then some ⟨yy, mm, dd⟩
      else none
    | _, _, _ => none
  | _ => none

/-- `get_metadata`, parameterized by the external `ElementTree.fromstring`
parser (out of scope of this codebase): strip the first default namespace
declaration, parse, and extract `.//satellite`, `.//acquisition_date`,
and the `path`/`row` attributes of `global_metadata/wrs`. -/
def get_metadata (fromstring : String → Option XNode) (content : String) :
    Option LandsatMeta :=
  match fromstring (stripXmlns content) with
  | none => none
  | some doc =>
    match findDescList "satellite" doc.children,
          findDescList "acquisition_date" doc.children,
          findChildList "global_metadata" doc.children with
    | some satNode, some dateNode, some gm =>
      match satNode.textVal, dateNode.textVal, findChildList "wrs" gm.children with
      | some satellite, some dateStr, some wrs =>
        match parseIsoDate dateStr, attribLookup "path" wrs.attrs,
              attribLookup "row" wrs.attrs with
        | some d, some p, some r => some ⟨d, satellite, p, r⟩
        | _, _, _ => none
      | _, _, _ => none
    | _, _, _ => none

/-- Fixture metadata used by the concrete witnesses. -/
def sampleMeta : LandsatMeta := ⟨⟨2001, 5, 11⟩, "LE07", "021", "048"⟩

/-- Fixture environment with seven qualifying files in the walk. -/
def envSeven : Env where
  messages := ["from/arch.tar.gz"]
  localArchiveExists := false
  unpackOk := true
  workdirListing := ["m.xml"]
  walkFiles :=
    [("/w/d/s", "b1_sr_a.tif"), ("/w/d/s", "b2_sr_a.tif"), ("/w/d/s", "b3_sr_a.tif"),
     ("/w/d/s", "b4_sr_a.tif"), ("/w/d/s", "b5_sr_a.tif"), ("/w/d/s", "b6_sr_a.tif"),
     ("/w/d/s", "b7_qa.tif")]
  metaOf := fun _ => sampleMeta
  store := []
  outPath := "test"
  workdir := "data/download"
  outdir := "/out"

/-- Fixture environment with a single qualifying file in the walk. -/
def envOne : Env :=
  { envSeven with walkFiles := [("/w/d/s", "b1_sr_a.tif"), ("/w/d/s", "skip.txt")] }

section BranchLemmas

variable {cfg : Config} {env : Env} {msg : Option String} {f : String}

lemma mem_downloadSeg {e : Event} (h : e ∈ downloadSeg env f) :
    ∃ k, e = Event.download k := by
  unfold downloadSeg at h
  split at h
  · simp at h
  · simp at h
    exact ⟨f, h⟩

lemma mem_transformSeg {e : Event} (h : e ∈ transformSeg env) :
    ∃ a b, e = Event.transformCall a b := by
  unfold transformSeg at h
  obtain ⟨pf, -, hpf⟩ := List.mem_map.mp h
  exact ⟨_, _, hpf.symm⟩

lemma mem_uploadSeg {x : String} {e : Event} (h : e ∈ uploadSeg env x) :
    ∃ k, e = Event.uploadData k := by
  unfold uploadSeg at h
  obtain ⟨o, -, ho⟩ := List.mem_map.mp h
  exact ⟨_, ho.symm⟩

lemma mem_cleanupSeg {e : Event} (h : e ∈ cleanupSeg cfg) :
    e = Event.cleanupEv := by
  unfold cleanupSeg at h
  split at h <;> simp at h
  exact h

lemma processBody_unpackFail (hu : env.unpackOk = false) :
    processBody cfg env msg f = finish cfg (downloadSeg env f) true msg := by
  simp [processBody, hu]

lemma processBody_noXml (hu : env.unpackOk = true)
    (hx : get_xmlfile env.workdirListing = none) :
    processBody cfg env msg f =
      Except.error (RunError.typeErrorJoinNone, downloadSeg env f) := by
  simp [processBody, hu, hx]

lemma processBody_skip {x : String} (hu : env.unpackOk = true)
    (hx : get_xmlfile env.workdirListing = some x)
    (hg : (cfg.overwrite || !check_processed env.store (xmlKeyFor env x)) = false) :
    processBody cfg env msg f = finish cfg (downloadSeg env f) false msg := by
  simp only [processBody, hu, if_true, hx, hg]
  simp

lemma processBody_publish {x : String} (hu : env.unpackOk = true)
    (hx : get_xmlfile env.workdirListing = some x)
    (hg : (cfg.overwrite || !check_processed env.store (xmlKeyFor env x)) = true)
    (h7 : 7 ≤ (outFilesFor env).length) :
    processBody cfg env msg f =
      finish cfg
        (downloadSeg env f ++ transformSeg env ++ uploadSeg env x ++
          [Event.uploadMeta (xmlKeyFor env x)]) false msg := by
  simp [processBody, hu, hx, hg, h7]

lemma processBody_incomplete {x : String} (hu : env.unpackOk = true)
    (hx : get_xmlfile env.workdirListing = some x)
    (hg : (cfg.overwrite || !check_processed env.store (xmlKeyFor env x)) = true)
    (h7 : ¬7 ≤ (outFilesFor env).length) :
    processBody cfg env msg f =
      finish cfg (downloadSeg env f ++ transformSeg env) true msg := by
  simp [processBody, hu, hx, hg, h7]

lemma process_one_msg {m : String} {tl : List String}
    (hms : env.messages = m :: tl) (ht : cfg.test = false) :
    process_one cfg env = processBody cfg env (some m) m := by
  simp [process_one, hms, ht]

lemma process_one_testMode (ht : cfg.test = true) :
    process_one cfg env = processBody cfg env none TESTKEY := by
  cases hms : env.messages <;> simp [process_one, hms, ht]

lemma process_one_noMessages (hms : env.messages = [])
    (ht : cfg.test = false) :
    process_one cfg env = Except.ok ⟨[], false⟩ := by
  simp [process_one, hms, ht]

end BranchLemmas

section FilterLemmas

variable {cfg : Config} {env : Env} {f x : String}

lemma noUpload_downloadSeg : (downloadSeg env f).filter isUploadEvent = [] := by
  refine List.filter_eq_nil_iff.mpr (fun e he => ?_)
  obtain ⟨k, rfl⟩ := mem_downloadSeg he
  simp [isUploadEvent]

lemma noUpload_transformSeg : (transformSeg env).filter isUploadEvent = [] := by
  refine List.filter_eq_nil_iff.mpr (fun e he => ?_)
  obtain ⟨a, b, rfl⟩ := mem_transformSeg he
  simp [isUploadEvent]

lemma noUpload_cleanupSeg : (cleanupSeg cfg).filter isUploadEvent = [] := by
  refine List.filter_eq_nil_iff.mpr (fun e he => ?_)
  rw [mem_cleanupSeg he]
  simp [isUploadEvent]

lemma noTransform_downloadSeg : (downloadSeg env f).filter isTransformEvent = [] := by
  refine List.filter_eq_nil_iff.mpr (fun e he => ?_)
  obtain ⟨k, rfl⟩ := mem_downloadSeg he
  simp [isTransformEvent]

lemma noTransform_cleanupSeg : (cleanupSeg cfg).filter isTransformEvent = [] := by
  refine List.filter_eq_nil_iff.mpr (fun e he => ?_)
  rw [mem_cleanupSeg he]
  simp [isTransformEvent]

lemma uploadDataKeys_append (a b : List Event) :
    uploadDataKeys (a ++ b) = uploadDataKeys a ++ uploadDataKeys b :=
  List.filterMap_append a b _

lemma uploadMetaKeys_append (a b : List Event) :
    uploadMetaKeys (a ++ b) = uploadMetaKeys a ++ uploadMetaKeys b :=
  List.filterMap_append a b _

lemma uploadDataKeys_downloadSeg : uploadDataKeys (downloadSeg env f) = [] := by
  unfold downloadSeg
  split <;> simp [uploadDataKeys]

lemma uploadDataKeys_transformSeg : uploadDataKeys (transformSeg env) = [] := by
  simp [uploadDataKeys, transformSeg, List.filterMap_map, Function.comp_def]

lemma uploadDataKeys_cleanupSeg : uploadDataKeys (cleanupSeg cfg) = [] := by
  unfold cleanupSeg
  split <;> simp [uploadDataKeys]

lemma uploadDataKeys_uploadSeg :
    uploadDataKeys (uploadSeg env x) =
      (outFilesFor env).map (fun o => outFilePathFor env x ++ "/" ++ basename o) := by
  simp only [uploadDataKeys, uploadSeg, List.filterMap_map, Function.comp_def]
  induction outFilesFor env with
  | nil => rfl
  | cons h t ih => simpa [List.filterMap_cons] using ih

lemma uploadMetaKeys_downloadSeg : uploadMetaKeys (downloadSeg env f) = [] := by
  unfold downloadSeg
  split <;> simp [uploadMetaKeys]

lemma uploadMetaKeys_transformSeg : uploadMetaKeys (transformSeg env) = [] := by
  simp [uploadMetaKeys, transformSeg, List.filterMap_map, Function.comp_def]

lemma uploadMetaKeys_uploadSeg : uploadMetaKeys (uploadSeg env x) = [] := by
  simp [uploadMetaKeys, uploadSeg, List.filterMap_map, Function.comp_def]

lemma uploadMetaKeys_cleanupSeg : uploadMetaKeys (cleanupSeg cfg) = [] := by
  unfold cleanupSeg
  split <;> simp [uploadMetaKeys]

lemma noTransform_metaSingleton {k : String} :
    [Event.uploadMeta k].filter isTransformEvent = [] := rfl

lemma noTransform_deleteSingleton :
    [Event.deleteMessage].filter isTransformEvent = [] := rfl

lemma uploadDataKeys_nil : uploadDataKeys [] = [] := rfl

lemma uploadMetaKeys_nil : uploadMetaKeys [] = [] := rfl

lemma uploadDataKeys_cons_meta (k : String) (l : List Event) :
    uploadDataKeys (Event.uploadMeta k :: l) = uploadDataKeys l := rfl

lemma uploadDataKeys_cons_delete (l : List Event) :
    uploadDataKeys (Event.deleteMessage :: l) = uploadDataKeys l := rfl

lemma uploadMetaKeys_cons_meta (k : String) (l : List Event) :
    uploadMetaKeys (Event.uploadMeta k :: l) = k :: uploadMetaKeys l := rfl

lemma uploadMetaKeys_cons_delete (l : List Event) :
    uploadMetaKeys (Event.deleteMessage :: l) = uploadMetaKeys l := rfl

end FilterLemmas

section StripLemmas

lemma stripAux_cons_noWs {c : Char} {cs : List Char} (h : isWs c = false) :
    stripAux (c :: cs) = c :: stripAux cs := by
  simp [stripAux, matchXmlns, h]

lemma stripAux_append_noWs {pre : List Char} (rest : List Char)
    (h : ∀ c ∈ pre, isWs c = false) :
    stripAux (pre ++ rest) = pre ++ stripAux rest := by
  induction pre with
  | nil => simp
  | cons c t ih =>
    have hc : isWs c = false := h c (List.mem_cons_self c t)
    have ht : ∀ d ∈ t, isWs d = false := fun d hd => h d (List.mem_cons_of_mem c hd)
    simp only [List.cons_append, stripAux_cons_noWs hc, ih ht]

lemma stripAux_cons_match {c : Char} {cs rest : List Char}
    (h : matchXmlns (c :: cs) = some rest) :
    stripAux (c :: cs) = rest := by
  simp [stripAux, h]

lemma stripLit_self (lit rest : List Char) :
    stripLit lit (lit ++ rest) = some rest := by
  induction lit with
  | nil => rfl
  | cons c t ih => simp [stripLit, ih]

lemma matchBody_closes {mid : List Char} (rest : List Char) (h : dq ∉ mid) :
    matchBody (mid ++ dq :: rest) = some rest := by
  induction mid with
  | nil => simp [matchBody]
  | cons c t ih =>
    have hc : ¬c = dq := fun hcd => h (hcd ▸ List.mem_cons_self c t)
    have ht : dq ∉ t := fun hd => h (List.mem_cons_of_mem c hd)
    simp [matchBody, hc, ih ht]

lemma matchQuoted_ok {mid : List Char} (rest : List Char)
    (hne : mid ≠ []) (h : dq ∉ mid) :
    matchQuoted (mid ++ dq :: rest) = some rest := by
  cases mid with
  | nil => exact absurd rfl hne
  | cons c t =>
    have hc : ¬c = dq := fun hcd => h (hcd ▸ List.mem_cons_self c t)
    have ht : dq ∉ t := fun hd => h (List.mem_cons_of_mem c hd)
    simp [matchQuoted, hc, matchBody_closes rest ht]

lemma matchXmlns_at {uri : List Char} (rest : List Char)
    (hne : uri ≠ []) (h : dq ∉ uri) :
    matchXmlns (' ' :: (("xmlns=\x22").data ++ (uri ++ dq :: rest))) = some rest := by
  have hws : isWs ' ' = true := by decide
  simp only [matchXmlns, hws, if_true, stripLit_self]
  exact matchQuoted_ok rest hne h

lemma stripAux_noMatch {s : List Char} (h : hasMatch s = false) :
    stripAux s = s := by
  induction s with
  | nil => rfl
  | cons c t ih =>
    cases hmx : matchXmlns (c :: t) with
    | some r => simp [hasMatch, hmx] at h
    | none =>
      have ht : hasMatch t = false := by simpa [hasMatch, hmx] using h
      simp [stripAux, hmx, ih ht]

lemma stringMk_data (s : String) : String.mk s.data = s := by
  cases s
  rfl

lemma stripXmlns_eq_self {s : String}
    (h : hasMatch s.data = false) : stripXmlns s = s := by
  rw [stripXmlns, stripAux_noMatch h, stringMk_data]

lemma stripXmlns_renderDescriptor {uri body : String}
    (h1 : uri.data ≠ []) (h2 : dq ∉ uri.data) :
    stripXmlns (renderDescriptor (some uri) body) =
      renderDescriptor none body := by
  have hmid : (" xmlns=\x22").data = ' ' :: ("xmlns=\x22").data := by decide
  have hq : ("\x22").data = [dq] := by decide
  have hpre : ∀ c ∈ ("<espa_metadata").data, isWs c = false := by decide
  have hdq : '\x22' = dq := by decide
  have hA : (renderDescriptor (some uri) body).data =
      ("<espa_metadata").data ++ (' ' :: (("xmlns=\x22").data ++
        (uri.data ++ dq :: ((">" ++ body ++ "</espa_metadata>").data)))) := by
    simp [renderDescriptor, String.data_append, hmid, hq, List.append_assoc]
    exact hdq
  have hB : (renderDescriptor none body).data =
      ("<espa_metadata").data ++ ((">" ++ body ++ "</espa_metadata>").data) := by
    simp [renderDescriptor, String.data_append, List.append_assoc]
  have hm := matchXmlns_at ((">" ++ body ++ "</espa_metadata>").data) h1 h2
  rw [stripXmlns, hA, stripAux_append_noWs _ hpre, stripAux_cons_match hm,
    ← hB, stringMk_data]

end StripLemmas

section MoreLemmas

variable {cfg : Config} {env : Env} {f x : String}

lemma noTransform_uploadSeg : (uploadSeg env x).filter isTransformEvent = [] := by
  refine List.filter_eq_nil_iff.mpr (fun e he => ?_)
  obtain ⟨k, rfl⟩ := mem_uploadSeg he
  simp [isTransformEvent]

lemma filterTransform_transformSeg :
    (transformSeg env).filter isTransformEvent = transformSeg env := by
  refine List.filter_eq_self.mpr (fun e he => ?_)
  obtain ⟨a, b, rfl⟩ := mem_transformSeg he
  simp [isTransformEvent]

lemma processBody_none_not_ok {r : RunResult}
    (h : processBody cfg env none f = Except.ok r) : False := by
  unfold processBody at h
  split at h
  · split at h
    · simp at h
    · split at h
      · split at h <;> simp [finish] at h
      · simp [finish] at h
  · simp [finish] at h

lemma finish_ok_iff {evs : List Event} {failed : Bool} {m : String} {r : RunResult} :
    finish cfg evs failed (some m) = Except.ok r ↔
      r = ⟨evs ++ cleanupSeg cfg ++ [Event.deleteMessage], failed⟩ := by
  constructor
  · intro h
    simp only [finish] at h
    exact (Except.ok.inj h).symm
  · intro h
    rw [h]
    rfl

lemma processBody_none_error
    (h : env.unpackOk = false ∨ (get_xmlfile env.workdirListing).isSome = true) :
    ∃ evs, processBody cfg env none f =
      Except.error (RunError.attributeErrorNoneDelete, evs) := by
  rcases h with hu | hx
  · exact ⟨_, by rw [processBody_unpackFail hu]; rfl⟩
  · cases hu : env.unpackOk with
    | false => exact ⟨_, by rw [processBody_unpackFail hu]; rfl⟩
    | true =>
      obtain ⟨x, hx⟩ := Option.isSome_iff_exists.mp hx
      by_cases hg : (cfg.overwrite || !check_processed env.store (xmlKeyFor env x)) = true
      · by_cases h7 : 7 ≤ (outFilesFor env).length
        · exact ⟨_, by rw [processBody_publish hu hx hg h7]; rfl⟩
        · exact ⟨_, by rw [processBody_incomplete hu hx hg h7]; rfl⟩
      · exact ⟨_, by
          rw [processBody_skip hu hx (Bool.not_eq_true _ ▸ hg)]
          rfl⟩

end MoreLemmas

/-- C7: the output key prefix is the deterministic function
`{OUT_PATH}/{satellite}/{path}/{row}/{YYYY}/{MM}/{DD}` of the extracted
metadata (dates zero-padded), and for satellite `LE07`, path `021`, row
`048`, date 2001-05-11 and `OUT_PATH = test` it is exactly
`test/LE07/021/048/2001/05/11`. -/
theorem c7_output_prefix_derivation :
    (∀ (dir : String) (m : LandsatMeta),
      mkOutFilePath dir m =
        dir ++ "/" ++ m.satellite ++ "/" ++ m.path ++ "/" ++ m.row ++ "/" ++
          (padNat 4 m.datetime.year ++ "/" ++ padNat 2 m.datetime.month ++ "/" ++
            padNat 2 m.datetime.day)) ∧
    mkOutFilePath "test" ⟨⟨2001, 5, 11⟩, "LE07", "021", "048"⟩ =
      "test/LE07/021/048/2001/05/11" :=
  ⟨fun dir m => rfl, by decide⟩

/-- C4: with a leased message, after an archive-unpack failure
`process_one` still completes normally with a failed outcome, performs no
remote-store upload, and deletes the queue message as its final action. -/
theorem c4_unpack_failure_still_acknowledged (cfg : Config) (env : Env)
    (hm : env.messages ≠ []) (ht : cfg.test = false)
    (hu : env.unpackOk = false) :
    ∃ r, process_one cfg env = Except.ok r ∧ r.failed = true ∧
      r.events.filter isUploadEvent = [] ∧
      r.events.getLast? = some Event.deleteMessage := by
  obtain ⟨m, tl, hms⟩ := List.exists_cons_of_ne_nil hm
  refine ⟨⟨downloadSeg env m ++ cleanupSeg cfg ++ [Event.deleteMessage], true⟩,
    ?_, rfl, ?_, ?_⟩
  · rw [process_one_msg hms ht, processBody_unpackFail hu]
    rfl
  · simp [List.filter_append, noUpload_downloadSeg, noUpload_cleanupSeg,
      isUploadEvent]
  · exact List.getLast?_concat _

/-- Witness for C4 at a concrete configuration and environment. -/
theorem c4_witness :
    ∃ r, process_one ⟨true, true, false⟩ { envSeven with unpackOk := false } =
        Except.ok r ∧ r.failed = true ∧
      r.events.filter isUploadEvent = [] ∧
      r.events.getLast? = some Event.deleteMessage :=
  c4_unpack_failure_still_acknowledged _ _ (by decide) rfl rfl

/-- C3: when the metadata destination key already exists and `overwrite`
is false, `process_one` performs zero transform calls and zero upload
calls, the outcome is success, and the message is still deleted. -/
theorem c3_skip_gate (cfg : Config) (env : Env) (x : String)
    (hm : env.messages ≠ []) (ht : cfg.test = false)
    (hu : env.unpackOk = true)
    (hx : get_xmlfile env.workdirListing = some x)
    (hp : check_processed env.store (xmlKeyFor env x) = true)
    (ho : cfg.overwrite = false) :
    ∃ r, process_one cfg env = Except.ok r ∧ r.failed = false ∧
      r.events.filter isTransformEvent = [] ∧
      r.events.filter isUploadEvent = [] ∧
      Event.deleteMessage ∈ r.events := by
  obtain ⟨m, tl, hms⟩ := List.exists_cons_of_ne_nil hm
  refine ⟨⟨downloadSeg env m ++ cleanupSeg cfg ++ [Event.deleteMessage], false⟩,
    ?_, rfl, ?_, ?_, ?_⟩
  · rw [process_one_msg hms ht, processBody_skip hu hx (by simp [ho, hp])]
    rfl
  · simp [List.filter_append, noTransform_downloadSeg, noTransform_cleanupSeg,
      isTransformEvent]
  · simp [List.filter_append, noUpload_downloadSeg, noUpload_cleanupSeg,
      isUploadEvent]
  · simp

/-- Witness for C3: the marker key already present, `overwrite = false`. -/
theorem c3_witness :
    ∃ r, process_one ⟨false, false, false⟩
        { envSeven with store := ["test/LE07/021/048/2001/05/11/m.xml"] } =
        Except.ok r ∧ r.failed = false ∧
      r.events.filter isTransformEvent = [] ∧
      r.events.filter isUploadEvent = [] ∧
      Event.deleteMessage ∈ r.events :=
  c3_skip_gate _ _ "m.xml" (by decide) rfl rfl (by decide) (by decide) rfl

/-- C1: publication is gated on the produced-output count — with the
skip gate open, seven or more produced outputs are all uploaded together
with the metadata file and the outcome succeeds, while six or fewer mean
nothing at all is uploaded and the outcome is failed. -/
theorem c1_completeness_gate (cfg : Config) (env : Env) (x : String)
    (hm : env.messages ≠ []) (ht : cfg.test = false)
    (hu : env.unpackOk = true)
    (hx : get_xmlfile env.workdirListing = some x)
    (hg : cfg.overwrite = true ∨ check_processed env.store (xmlKeyFor env x) = false) :
    ∃ r, process_one cfg env = Except.ok r ∧
      ((7 ≤ (outFilesFor env).length →
        r.failed = false ∧
        uploadDataKeys r.events =
          (outFilesFor env).map (fun o => outFilePathFor env x ++ "/" ++ basename o) ∧
        uploadMetaKeys r.events = [xmlKeyFor env x]) ∧
      ((outFilesFor env).length ≤ 6 →
        r.failed = true ∧ r.events.filter isUploadEvent = [])) := by
  obtain ⟨m, tl, hms⟩ := List.exists_cons_of_ne_nil hm
  have hg2 : (cfg.overwrite || !check_processed env.store (xmlKeyFor env x)) = true := by
    rcases hg with h | h <;> simp [h]
  by_cases h7 : 7 ≤ (outFilesFor env).length
  · refine ⟨⟨downloadSeg env m ++ transformSeg env ++ uploadSeg env x ++
      [Event.uploadMeta (xmlKeyFor env x)] ++ cleanupSeg cfg ++
      [Event.deleteMessage], false⟩, ?_, ?_, ?_⟩
    · rw [process_one_msg hms ht, processBody_publish hu hx hg2 h7]
      rfl
    · intro _
      refine ⟨rfl, ?_, ?_⟩
      · simp [uploadDataKeys_append, uploadDataKeys_downloadSeg,
          uploadDataKeys_transformSeg, uploadDataKeys_uploadSeg,
          uploadDataKeys_cleanupSeg, uploadDataKeys_cons_meta,
          uploadDataKeys_cons_delete, uploadDataKeys_nil]
      · simp [uploadMetaKeys_append, uploadMetaKeys_downloadSeg,
          uploadMetaKeys_transformSeg, uploadMetaKeys_uploadSeg,
          uploadMetaKeys_cleanupSeg, uploadMetaKeys_cons_meta,
          uploadMetaKeys_cons_delete, uploadMetaKeys_nil]
    · intro h6
      omega
  · refine ⟨⟨downloadSeg env m ++ transformSeg env ++ cleanupSeg cfg ++
      [Event.deleteMessage], true⟩, ?_, ?_, ?_⟩
    · rw [process_one_msg hms ht, processBody_incomplete hu hx hg2 h7]
      rfl
    · intro h
      exact absurd h h7
    · intro _
      refine ⟨rfl, ?_⟩
      simp [List.filter_append, noUpload_downloadSeg, noUpload_transformSeg,
        noUpload_cleanupSeg, isUploadEvent]

/-- Witness for C1 at an environment with exactly seven qualifying
files. -/
theorem c1_witness :
    ∃ r, process_one ⟨false, false, false⟩ envSeven = Except.ok r ∧
      ((7 ≤ (outFilesFor envSeven).length →
        r.failed = false ∧
        uploadDataKeys r.events =
          (outFilesFor envSeven).map
            (fun o => outFilePathFor envSeven "m.xml" ++ "/" ++ basename o) ∧
        uploadMetaKeys r.events = [xmlKeyFor envSeven "m.xml"]) ∧
      ((outFilesFor envSeven).length ≤ 6 →
        r.failed = true ∧ r.events.filter isUploadEvent = [])) :=
  c1_completeness_gate _ _ "m.xml" (by decide) rfl rfl (by decide) (Or.inr (by decide))

/-- C2: in every successful publish, all data-output uploads happen
before the single metadata upload, and no upload of any kind follows
the metadata upload — the metadata key is the last object written. -/
theorem c2_metadata_upload_last (cfg : Config) (env : Env) (r : RunResult)
    (k : String) (h : process_one cfg env = Except.ok r)
    (hk : Event.uploadMeta k ∈ r.events) :
    ∃ pre post, r.events = pre ++ Event.uploadMeta k :: post ∧
      (∀ e ∈ post, isUploadEvent e = false) ∧
      (∀ e ∈ pre, ∀ k2, e ≠ Event.uploadMeta k2) := by
  cases htest : cfg.test with
  | true =>
    rw [process_one_testMode htest] at h
    exact (processBody_none_not_ok h).elim
  | false =>
    cases hms : env.messages with
    | nil =>
      rw [process_one_noMessages hms htest] at h
      obtain rfl := (Except.ok.inj h).symm
      simp at hk
    | cons m tl =>
      rw [process_one_msg hms htest] at h
      cases hu : env.unpackOk with
      | false =>
        rw [processBody_unpackFail hu] at h
        obtain rfl := finish_ok_iff.mp h
        simp only [List.mem_append, List.mem_singleton] at hk
        rcases hk with (h1 | h1) | h1
        · obtain ⟨kk, hc⟩ := mem_downloadSeg h1
          simp at hc
        · have := mem_cleanupSeg h1
          simp at this
        · simp at h1
      | true =>
        cases hxml : get_xmlfile env.workdirListing with
        | none =>
          rw [processBody_noXml hu hxml] at h
          simp at h
        | some x =>
          by_cases hg : (cfg.overwrite || !check_processed env.store (xmlKeyFor env x)) = true
          · by_cases h7 : 7 ≤ (outFilesFor env).length
            · rw [processBody_publish hu hxml hg h7] at h
              obtain rfl := finish_ok_iff.mp h
              have hkx : k = xmlKeyFor env x := by
                simp only [List.append_assoc, List.mem_append,
                  List.mem_singleton, List.mem_cons] at hk
                rcases hk with h1 | h1 | h1 | h1 | h1
                · obtain ⟨kk, hc⟩ := mem_downloadSeg h1
                  simp at hc
                · obtain ⟨a, b, hc⟩ := mem_transformSeg h1
                  simp at hc
                · obtain ⟨kk, hc⟩ := mem_uploadSeg h1
                  simp at hc
                · rcases h1 with h1 | h1
                  · exact Event.uploadMeta.inj h1
                  · simp at h1
                · rcases h1 with h1 | h1
                  · have := mem_cleanupSeg h1
                    simp at this
                  · simp at h1
              subst hkx
              refine ⟨downloadSeg env m ++ transformSeg env ++ uploadSeg env x,
                cleanupSeg cfg ++ [Event.deleteMessage], ?_, ?_, ?_⟩
              · simp [List.append_assoc]
              · intro e he
                rcases List.mem_append.mp he with h1 | h1
                · rw [mem_cleanupSeg h1]
                  rfl
                · rw [List.mem_singleton.mp h1]
                  rfl
              · intro e he k2
                rcases List.mem_append.mp he with h1 | h1
                · rcases List.mem_append.mp h1 with h2 | h2
                  · obtain ⟨kk, rfl⟩ := mem_downloadSeg h2
                    simp
                  · obtain ⟨a, b, rfl⟩ := mem_transformSeg h2
                    simp
                · obtain ⟨kk, rfl⟩ := mem_uploadSeg h1
                  simp
            · rw [processBody_incomplete hu hxml hg h7] at h
              obtain rfl := finish_ok_iff.mp h
              simp only [List.append_assoc, List.mem_append,
                List.mem_singleton] at hk
              rcases hk with h1 | h1 | h1 | h1
              · obtain ⟨kk, hc⟩ := mem_downloadSeg h1
                simp at hc
              · obtain ⟨a, b, hc⟩ := mem_transformSeg h1
                simp at hc
              · have := mem_cleanupSeg h1
                simp at this
              · simp at h1
          · rw [processBody_skip hu hxml (Bool.not_eq_true _ ▸ hg)] at h
            obtain rfl := finish_ok_iff.mp h
            simp only [List.append_assoc, List.mem_append,
              List.mem_singleton] at hk
            rcases hk with h1 | h1 | h1
            · obtain ⟨kk, hc⟩ := mem_downloadSeg h1
              simp at hc
            · have := mem_cleanupSeg h1
              simp at this
            · simp at h1

/-- Witness for C2 at the seven-output publish run. -/
theorem c2_witness :
    ∃ pre post,
      (⟨[Event.download "from/arch.tar.gz",
        Event.transformCall "/w/d/s/b1_sr_a.tif" "/out/s/b1_sr_a.tif",
        Event.transformCall "/w/d/s/b2_sr_a.tif" "/out/s/b2_sr_a.tif",
        Event.transformCall "/w/d/s/b3_sr_a.tif" "/out/s/b3_sr_a.tif",
        Event.transformCall "/w/d/s/b4_sr_a.tif" "/out/s/b4_sr_a.tif",
        Event.transformCall "/w/d/s/b5_sr_a.tif" "/out/s/b5_sr_a.tif",
        Event.transformCall "/w/d/s/b6_sr_a.tif" "/out/s/b6_sr_a.tif",
        Event.transformCall "/w/d/s/b7_qa.tif" "/out/s/b7_qa.tif",
        Event.uploadData "test/LE07/021/048/2001/05/11/b1_sr_a.tif",
        Event.uploadData "test/LE07/021/048/2001/05/11/b2_sr_a.tif",
        Event.uploadData "test/LE07/021/048/2001/05/11/b3_sr_a.tif",
        Event.uploadData "test/LE07/021/048/2001/05/11/b4_sr_a.tif",
        Event.uploadData "test/LE07/021/048/2001/05/11/b5_sr_a.tif",
        Event.uploadData "test/LE07/021/048/2001/05/11/b6_sr_a.tif",
        Event.uploadData "test/LE07/021/048/2001/05/11/b7_qa.tif",
        Event.uploadMeta "test/LE07/021/048/2001/05/11/m.xml",
        Event.deleteMessage], false⟩ : RunResult).events =
          pre ++ Event.uploadMeta "test/LE07/021/048/2001/05/11/m.xml" :: post ∧
      (∀ e ∈ post, isUploadEvent e = false) ∧
      (∀ e ∈ pre, ∀ k2, e ≠ Event.uploadMeta k2) :=
  c2_metadata_upload_last ⟨false, false, false⟩ envSeven _
    "test/LE07/021/048/2001/05/11/m.xml" (by decide) (by decide)

/-- C5 fails on the code: with no descriptor file in the workspace the
run does not soft-fail and acknowledge — it raises (a `TypeError` from
joining `None`), so the message is never deleted. -/
theorem c5_counterexample :
    process_one ⟨true, true, false⟩
        { envSeven with workdirListing := ["scene.txt"], localArchiveExists := true } =
      Except.error (RunError.typeErrorJoinNone, []) ∧
    runOk (process_one ⟨true, true, false⟩
        { envSeven with workdirListing := ["scene.txt"], localArchiveExists := true }) =
      false ∧
    get_xmlfile ["scene.txt"] = none := by
  refine ⟨?_, ?_, ?_⟩ <;> decide

/-- C5 amended: when the workspace holds no descriptor file,
`get_xmlfile` returns no path (not a NotFound error) and `process_one`
raises an error that propagates to the caller; nothing is published and
the queue message is not deleted. -/
theorem c5_amended_missing_descriptor (cfg : Config) (env : Env)
    (hm : env.messages ≠ []) (ht : cfg.test = false)
    (hu : env.unpackOk = true)
    (hx : get_xmlfile env.workdirListing = none) :
    ∃ evs, process_one cfg env =
      Except.error (RunError.typeErrorJoinNone, evs) ∧
      evs.filter isUploadEvent = [] ∧ Event.deleteMessage ∉ evs := by
  obtain ⟨m, tl, hms⟩ := List.exists_cons_of_ne_nil hm
  refine ⟨downloadSeg env m, ?_, noUpload_downloadSeg, ?_⟩
  · rw [process_one_msg hms ht, processBody_noXml hu hx]
  · intro hdel
    obtain ⟨kk, hc⟩ := mem_downloadSeg hdel
    simp at hc

/-- Witness for the amended C5. -/
theorem c5_witness :
    ∃ evs, process_one ⟨true, true, false⟩
        { envSeven with workdirListing := ["scene.txt"] } =
      Except.error (RunError.typeErrorJoinNone, evs) ∧
      evs.filter isUploadEvent = [] ∧ Event.deleteMessage ∉ evs :=
  c5_amended_missing_descriptor _ _ (by decide) rfl rfl (by decide)

lemma get_itemsAux_take (f : String) (hf : f ≠ "") (LIMIT : Nat) :
    ∀ (items : List String) (count : Nat),
      get_itemsAux (some f) LIMIT count items =
        (items.filter (fun i => containsSub i f)).take (LIMIT - 1 - count) := by
  intro items
  induction items with
  | nil => intro count; simp [get_itemsAux]
  | cons a t ih =>
    intro count
    by_cases hm : containsSub a f = true
    · have hcond : (decide (f ≠ "") && containsSub a f) = true := by simp [hf, hm]
      by_cases hl : LIMIT ≤ count + 1
      · have h0 : LIMIT - 1 - count = 0 := by omega
        simp [get_itemsAux, hcond, hl, hf, List.filter_cons, hm, h0]
      · have hpos : LIMIT - 1 - count = (LIMIT - 1 - (count + 1)) + 1 := by omega
        rw [show get_itemsAux (some f) LIMIT count (a :: t) =
          a :: get_itemsAux (some f) LIMIT (count + 1) t from by
            simp [get_itemsAux, hcond, hl, hf, hm]]
        rw [ih (count + 1)]
        simp [List.filter_cons, hm, hpos]
    · have hm2 : containsSub a f = false := Bool.not_eq_true _ ▸ hm
      have hcond : (decide (f ≠ "") && containsSub a f) = false := by simp [hm2]
      simp [get_itemsAux, hcond, hf, List.filter_cons, hm2, ih count]

/-- C6 fails on the code: a listing with at least `limit` matching keys
does not yield `limit` enqueues — the break fires before the `limit`-th
send, so only `limit − 1` are enqueued. -/
theorem c6_counterexample :
    (["a_x_1", "b_x_2"].filter (fun i => containsSub i "x")).length = 2 ∧
    get_items 2 (some "x") ["a_x_1", "b_x_2"] = ["a_x_1"] := by
  refine ⟨?_, ?_⟩ <;> decide

/-- C6 amended: for a nonempty filter substring, `get_items` enqueues
exactly the first `limit − 1` matching keys when at least `limit` keys
match, and every matching key when fewer than `limit` match — i.e. the
sent list is the matching sublist truncated to `limit − 1`. -/
theorem c6_amended_enqueue_count (LIMIT : Nat) (f : String)
    (items : List String) (hf : f ≠ "") :
    get_items LIMIT (some f) items =
      (items.filter (fun i => containsSub i f)).take (LIMIT - 1) := by
  have h := get_itemsAux_take f hf LIMIT items 0
  simpa [get_items] using h

/-- Witness for the amended C6: five keys, four matches, limit three,
two enqueued. -/
theorem c6_witness :
    get_items 3 (some "x") ["a_x", "no", "b_x", "c_x", "d_x"] =
      (["a_x", "no", "b_x", "c_x", "d_x"].filter
        (fun i => containsSub i "x")).take 2 :=
  c6_amended_enqueue_count 3 "x" _ (by decide)

/-- C8 fails on the code for inputs nested more than one directory below
the walk root: `getfilename` keeps only the last two path components, not
the full mirrored relative path. -/
theorem c8_counterexample :
    getfilename "/data/download/scene1/extra/a_sr_b1.tif" "/data/out" =
      "/data/out/extra/a_sr_b1.tif" ∧
    specMirroredOutputPath "/data/download" "/data/out"
        "/data/download/scene1/extra/a_sr_b1.tif" =
      "/data/out/scene1/extra/a_sr_b1.tif" ∧
    getfilename "/data/download/scene1/extra/a_sr_b1.tif" "/data/out" ≠
      specMirroredOutputPath "/data/download" "/data/out"
        "/data/download/scene1/extra/a_sr_b1.tif" := by
  refine ⟨?_, ?_, ?_⟩ <;> decide

/-- C8 amended: every qualifying file of the walk triggers exactly one
transform call, in walk order, whose output path is the transform
workspace joined with the last two components (immediate parent
directory and filename) of the input path. -/
theorem c8_amended_transform_outputs (cfg : Config) (env : Env) (x : String)
    (hm : env.messages ≠ []) (ht : cfg.test = false)
    (hu : env.unpackOk = true)
    (hx : get_xmlfile env.workdirListing = some x)
    (hg : cfg.overwrite = true ∨ check_processed env.store (xmlKeyFor env x) = false) :
    ∃ r, process_one cfg env = Except.ok r ∧
      r.events.filter isTransformEvent =
        (qualFiles env).map (fun pf =>
          Event.transformCall (pjoin2 pf.1 pf.2)
            (getfilename (pjoin2 pf.1 pf.2) env.outdir)) := by
  obtain ⟨m, tl, hms⟩ := List.exists_cons_of_ne_nil hm
  have hg2 : (cfg.overwrite || !check_processed env.store (xmlKeyFor env x)) = true := by
    rcases hg with h | h <;> simp [h]
  by_cases h7 : 7 ≤ (outFilesFor env).length
  · refine ⟨⟨downloadSeg env m ++ transformSeg env ++ uploadSeg env x ++
      [Event.uploadMeta (xmlKeyFor env x)] ++ cleanupSeg cfg ++
      [Event.deleteMessage], false⟩, ?_, ?_⟩
    · rw [process_one_msg hms ht, processBody_publish hu hx hg2 h7]
      rfl
    · rw [show (qualFiles env).map (fun pf =>
          Event.transformCall (pjoin2 pf.1 pf.2)
            (getfilename (pjoin2 pf.1 pf.2) env.outdir)) = transformSeg env
          from rfl]
      simp only [List.filter_append, noTransform_downloadSeg,
        noTransform_uploadSeg, noTransform_cleanupSeg,
        filterTransform_transformSeg, noTransform_metaSingleton,
        noTransform_deleteSingleton, List.append_nil, List.nil_append]
  · refine ⟨⟨downloadSeg env m ++ transformSeg env ++ cleanupSeg cfg ++
      [Event.deleteMessage], true⟩, ?_, ?_⟩
    · rw [process_one_msg hms ht, processBody_incomplete hu hx hg2 h7]
      rfl
    · rw [show (qualFiles env).map (fun pf =>
          Event.transformCall (pjoin2 pf.1 pf.2)
            (getfilename (pjoin2 pf.1 pf.2) env.outdir)) = transformSeg env
          from rfl]
      simp only [List.filter_append, noTransform_downloadSeg,
        noTransform_cleanupSeg, filterTransform_transformSeg,
        noTransform_deleteSingleton, List.append_nil, List.nil_append]

/-- Witness for the amended C8 at an environment with one qualifying and
one non-qualifying file. -/
theorem c8_witness :
    ∃ r, process_one ⟨false, false, false⟩ envOne = Except.ok r ∧
      r.events.filter isTransformEvent =
        (qualFiles envOne).map (fun pf =>
          Event.transformCall (pjoin2 pf.1 pf.2)
            (getfilename (pjoin2 pf.1 pf.2) envOne.outdir)) :=
  c8_amended_transform_outputs _ _ "m.xml" (by decide) rfl rfl (by decide)
    (Or.inr (by decide))

/-- C9: descriptor parsing is namespace-tolerant — for structurally
identical descriptor bodies, the document carrying a default `xmlns`
declaration and the one without it parse to identical metadata, because
the substitution removes exactly the declaration. -/
theorem c9_namespace_tolerance (fromstring : String → Option XNode)
    (uri body : String) (h1 : uri.data ≠ []) (h2 : dq ∉ uri.data)
    (h3 : hasMatch (renderDescriptor none body).data = false) :
    get_metadata fromstring (renderDescriptor (some uri) body) =
      get_metadata fromstring (renderDescriptor none body) := by
  unfold get_metadata
  rw [stripXmlns_renderDescriptor h1 h2, stripXmlns_eq_self h3]

/-- Witness for C9 with a realistic namespace URI and body. -/
theorem c9_witness :
    get_metadata (fun _ => none)
        (renderDescriptor (some "http://espa.cr.usgs.gov/v2")
          "<global_metadata><satellite>LE07</satellite></global_metadata>") =
      get_metadata (fun _ => none)
        (renderDescriptor none
          "<global_metadata><satellite>LE07</satellite></global_metadata>") :=
  c9_namespace_tolerance _ _ _ (by decide) (by decide) (by decide)

/-- C10: in test mode any received message is ignored (the outcome does
not depend on the received messages), `process_one` never completes
normally, and whenever control reaches the final acknowledge step it
raises from dereferencing the null message. -/
theorem c10_test_mode_never_completes (cfg : Config) (env : Env)
    (ms : List String) (ht : cfg.test = true) :
    process_one cfg { env with messages := ms } = process_one cfg env ∧
    runOk (process_one cfg env) = false ∧
    ((env.unpackOk = false ∨ (get_xmlfile env.workdirListing).isSome = true) →
      ∃ evs, process_one cfg env =
        Except.error (RunError.attributeErrorNoneDelete, evs)) := by
  refine ⟨?_, ?_, ?_⟩
  · rw [process_one_testMode ht, process_one_testMode ht]
    rfl
  · cases hr : process_one cfg env with
    | ok r =>
      rw [process_one_testMode ht] at hr
      exact (processBody_none_not_ok hr).elim
    | error e => rfl
  · intro hcase
    obtain ⟨evs, hevs⟩ := processBody_none_error (f := TESTKEY) hcase
    exact ⟨evs, by rw [process_one_testMode ht, hevs]⟩

/-- Witness for C10: test mode with a nonempty received message list. -/
theorem c10_witness :
    process_one ⟨true, false, true⟩ { envSeven with messages := ["other.tar.gz"] } =
      process_one ⟨true, false, true⟩ envSeven ∧
    runOk (process_one ⟨true, false, true⟩ envSeven) = false ∧
    ((envSeven.unpackOk = false ∨ (get_xmlfile envSeven.workdirListing).isSome = true) →
      ∃ evs, process_one ⟨true, false, true⟩ envSeven =
        Except.error (RunError.attributeErrorNoneDelete, evs)) :=
  c10_test_mode_never_completes _ _ _ rfl

end LandsatCog
